import Mathlib

/-
Verification of the artist/album image cache of `server.py` (mpd-web).

The embedding models the image-acquisition core of the server:
the module-level blacklist (`IMAGE_BLACKLIST`, `load_blacklist`), the
class-level caches (`Handler.image_cache`, `Handler.image_index`,
`Handler.current_image_url`), the candidate-URL collection pipeline and
image download loop of `Handler.handle_artistart`, and the blacklist
operation `Handler.handle_blacklist`.

Network interaction is modelled by explicit environments: a `ProviderEnv`
records what each metadata provider would answer (a provider call that
raises, returns no data, or returns only falsy fields is modelled by
`none` / an empty list, matching the `try/except: pass` blocks), and a
function `net : String -> Option (List Nat × String)` records, for each
image URL, whether the binary download succeeds and with what payload
bytes and content type (the `Content-Type` default `image/jpeg` is folded
into the environment).  File persistence (`save_blacklist`) is
best-effort I/O whose failures the code swallows; the in-memory
`IMAGE_BLACKLIST` set is the store that all code paths consult, and it is
the `blacklist` field of the state below.  Python strings are modelled by
`String`, with `.lower()` / `.strip()` / substring tests given as
executable functions over the character list.
-/

namespace MpdWeb

/-- Lowercasing of a string, character by character (Python `str.lower`). -/
def lowerStr (s : String) : String :=
  ⟨s.data.map Char.toLower⟩

/-- Whitespace trimming at both ends (Python `str.strip`). -/
def trimStr (s : String) : String :=
  ⟨((s.data.dropWhile Char.isWhitespace).reverse.dropWhile Char.isWhitespace).reverse⟩

/-- Does the character list start with `pat`? -/
def hasPref : List Char → List Char → Bool
  | [], _ => true
  | _ :: _, [] => false
  | a :: as, b :: bs => a == b && hasPref as bs

/-- Does the character list contain `pat` as a contiguous run? -/
def hasSubstring (pat : List Char) : List Char → Bool
  | [] => hasPref pat []
  | c :: cs => hasPref pat (c :: cs) || hasSubstring pat cs

/-- Substring test on strings (Python `pat in s`). -/
def containsSub (pat s : String) : Bool :=
  hasSubstring pat.data s.data

/-- One cached image: downloaded payload bytes, content type, and the URL it
was fetched from.  Mirrors the `(img_data, content_type, img_url)` tuples
stored in `Handler.image_cache` in `server.py`. -/
structure ImageRecord where
  data : List Nat
  contentType : String
  sourceURL : String
  deriving DecidableEq, Repr

/-- The mutable module/class state of `server.py`: `Handler.image_cache`
(per cache key, the list of cached images), `Handler.image_index` (per
cache key, the rotation index), `Handler.current_image_url` (per cache
key, the last served URL), and the module-level `IMAGE_BLACKLIST` set,
modelled as a duplicate-free-by-insertion list used only through
membership. -/
structure CacheState where
  image_cache : String → Option (List ImageRecord)
  image_index : String → Option Nat
  current_image_url : String → Option String
  blacklist : List String

/-- Pointwise update of a keyed map (Python dict assignment / `del`). -/
def setMap {α : Type} (m : String → Option α) (k : String) (v : Option α) :
    String → Option α :=
  fun x => if x = k then v else m x

/-- Loading of the persisted blacklist at process start (`load_blacklist`):
the stored list of URLs when the file exists and parses, otherwise the
empty set (`none` models a missing or corrupt file, whose exception is
swallowed). -/
def load_blacklist (fileContents : Option (List String)) : List String :=
  match fileContents with
  | some urls => urls
  | none => []

/-- What the external metadata providers would answer during one
candidate-collection run of `handle_artistart`.  Each field carries only
the truthy values the Python code would read out of the parsed JSON, in
the order the code inspects them; a provider whose request or parse fails
contributes `none` / `[]`, matching the surrounding `try/except: pass`. -/
structure ProviderEnv where
  deezerAlbumCover : Option String
  audioDbAlbumPics : List String
  deezerArtistPics : String → List String
  deezerTrackCovers : List String
  audioDbArtistPics : List String

/-- Soundtrack-hint test of `handle_artistart`:
`album and album.lower() in ('soundtrack', 'ost', 'game', 'movie')`. -/
def soundtrackHint (album : String) : Bool :=
  decide (album ≠ "") && ["soundtrack", "ost", "game", "movie"].contains (lowerStr album)

/-- Candidate URLs contributed by the two album-art providers (lines
239-263 of `server.py`): the Deezer album cover, if any, followed by the
truthy TheAudioDB album image fields, appended without any membership
check. -/
def albumPhase (env : ProviderEnv) : List String :=
  (match env.deezerAlbumCover with
   | some cover => [cover]
   | none => []) ++ env.audioDbAlbumPics

/-- Search-term list for the Deezer artist provider: the artist itself,
extended with four decorated variants when the soundtrack hint holds. -/
def searchTerms (artist : String) (isSt : Bool) : List String :=
  artist :: (if isSt then
    [artist ++ " soundtrack", artist ++ " ost", artist ++ " game", artist ++ " movie"]
  else [])

/-- Appending of a URL guarded by a membership check, the
`if u and u not in image_urls: image_urls.append(u)` pattern. -/
def dedupAppend (us : List String) (u : String) : List String :=
  if u ∈ us then us else us ++ [u]

/-- One Deezer artist query (lines 276-288): walk the picture fields in
preference order and append the first one not already collected (`break`
after a successful append, plain `continue` when the value is already
present). -/
def deezerArtistStep (env : ProviderEnv) (us : List String) (term : String) : List String :=
  match (env.deezerArtistPics term).find? (fun u => decide (u ∉ us)) with
  | some u => us ++ [u]
  | none => us

/-- The complete candidate-collection pipeline of `handle_artistart`
(lines 235-316): album-art providers (only for a non-empty, non-hint
album), Deezer artist search over the first two search terms, Deezer
track fallback (when the hint holds or nothing was collected), and the
TheAudioDB artist provider. -/
def collectUrls (env : ProviderEnv) (artist album : String) : List String :=
  let is_st := soundtrackHint album
  let urls : List String := if album ≠ "" ∧ is_st = false then albumPhase env else []
  let urls := ((searchTerms artist is_st).take 2).foldl (deezerArtistStep env) urls
  let urls := if is_st = true ∨ urls = [] then env.deezerTrackCovers.foldl dedupAppend urls
              else urls
  env.audioDbArtistPics.foldl dedupAppend urls

/-- Artist argument of `handle_artistart`: `args[0].strip()`. -/
def artArtist : List String → String
  | [] => ""
  | a0 :: _ => trimStr a0

/-- Album argument of `handle_artistart`:
`args[1].strip() if len(args) > 1 else ''`. -/
def artAlbum : List String → String
  | [] => ""
  | _ :: [] => ""
  | _ :: a1 :: _ => trimStr a1

/-- Cache key of `handle_artistart`: `f"{artist.lower()}|{album.lower()}"`. -/
def artKey (args : List String) : String :=
  lowerStr (artArtist args) ++ "|" ++ lowerStr (artAlbum args)

/-- Blacklist-filtered candidate list of one cache-miss run (line 319):
the collected URLs with every member of `IMAGE_BLACKLIST` dropped. -/
def filteredCandidates (env : ProviderEnv) (bl : List String) (args : List String) :
    List String :=
  (collectUrls env (artArtist args) (artAlbum args)).filter (fun u => decide (u ∉ bl))

/-- One image download (lines 329-338): `none` on a network failure, and
on success the payload is kept only when it exceeds 500 bytes
(`if len(img_data) > 500`). -/
def fetchOne (net : String → Option (List Nat × String)) (url : String) :
    Option ImageRecord :=
  match net url with
  | none => none
  | some (imgData, contentType) =>
    if imgData.length > 500 then some ⟨imgData, contentType, url⟩ else none

/-- Outcome of one `handle_artistart` request.  `served` carries the body,
content type, the `X-Image-Index` pair `position/total`, and the
`X-Cache-Key`; `noContent` is HTTP 204, `notFound` HTTP 404, `badRequest`
HTTP 400, and `internalError` an uncaught Python exception (a dict or
list access that cannot happen on well-formed states). -/
inductive ArtResponse where
  | badRequest
  | noContent
  | notFound
  | internalError
  | served (data : List Nat) (contentType : String) (position total : Nat) (cacheKey : String)
  deriving DecidableEq, Repr

/-- Outcome of one `handle_blacklist` request. `success` carries the JSON
fields `blacklisted` and `remaining`; `protectedPlaceholder` the
HTTP 200 error payload with its `remaining` count; `noCurrentImage` is
HTTP 404 and `badRequest` HTTP 400; `internalError` an uncaught Python
exception. -/
inductive BlResponse where
  | badRequest
  | noCurrentImage
  | internalError
  | protectedPlaceholder (remaining : Nat)
  | success (blacklisted : String) (remaining : Nat)
  deriving DecidableEq, Repr

/-- Cache-hit tail of `handle_artistart` (lines 347-366): read the record
at the current index, record its URL in `current_image_url`, advance the
index modulo the set size, and serve the record with
`X-Image-Index: (idx+1)/len`. -/
def serveFromCache (st : CacheState) (cache_key : String) : ArtResponse × CacheState :=
  match st.image_cache cache_key with
  | none => (.internalError, st)
  | some images =>
    match st.image_index cache_key with
    | none => (.internalError, st)
    | some idx =>
      match images[idx]? with
      | none => (.internalError, st)
      | some r =>
        (.served r.data r.contentType (idx + 1) images.length cache_key,
         { st with
           current_image_url := setMap st.current_image_url cache_key (some r.sourceURL),
           image_index := setMap st.image_index cache_key (some ((idx + 1) % images.length)) })

/-- The `handle_artistart` request handler (lines 222-366): on a cache
miss, collect candidates, filter them against the blacklist (empty
filtered list gives HTTP 204 with no state change), download them (no
success gives HTTP 404 with no state change), store the downloads with
index 0; then, as on a plain cache hit, serve the record at the current
index and advance the rotation. -/
def handle_artistart (env : ProviderEnv) (net : String → Option (List Nat × String))
    (args : List String) (st : CacheState) : ArtResponse × CacheState :=
  match args with
  | [] => (.badRequest, st)
  | a0 :: rest =>
    let cache_key := artKey (a0 :: rest)
    match st.image_cache cache_key with
    | some _ => serveFromCache st cache_key
    | none =>
      let image_urls := filteredCandidates env st.blacklist (a0 :: rest)
      if image_urls = [] then (.noContent, st)
      else
        let cached_images := image_urls.filterMap (fetchOne net)
        if cached_images = [] then (.notFound, st)
        else
          serveFromCache
            { st with
              image_cache := setMap st.image_cache cache_key (some cached_images),
              image_index := setMap st.image_index cache_key (some 0) } cache_key

/-- The `handle_blacklist` request handler (lines 368-414): look up the
last served URL for `args[0].lower()` (HTTP 404 when absent), refuse to
blacklist a `ui-avatars.com` placeholder (HTTP 200 error payload, no
state change), otherwise add the URL to `IMAGE_BLACKLIST`, drop every
cached record with that source URL, delete the cache entry and index
when the set became empty, else re-clamp the index modulo the shrunk
size, and answer with the URL and the remaining count.  The
`internalError` branch is the Python `KeyError` raised at line 408 when
an index entry is missing while the cache entry survives; at that point
the blacklist and the cache entry are already updated. -/
def handle_blacklist (args : List String) (st : CacheState) : BlResponse × CacheState :=
  match args with
  | [] => (.badRequest, st)
  | k0 :: _ =>
    let cache_key := lowerStr k0
    match st.current_image_url cache_key with
    | none => (.noCurrentImage, st)
    | some img_url =>
      if containsSub "ui-avatars.com" img_url then
        (.protectedPlaceholder ((st.image_cache cache_key).getD []).length, st)
      else
        let st1 : CacheState := { st with blacklist := st.blacklist.insert img_url }
        match st1.image_cache cache_key with
        | none =>
          (.success img_url ((st1.image_cache cache_key).getD []).length, st1)
        | some imgs =>
          let imgs2 := imgs.filter (fun r => decide (r.sourceURL ≠ img_url))
          if imgs2 = [] then
            let st2 : CacheState :=
              { st1 with
                image_cache := setMap st1.image_cache cache_key none,
                image_index := setMap st1.image_index cache_key none }
            (.success img_url ((st2.image_cache cache_key).getD []).length, st2)
          else
            match st1.image_index cache_key with
            | none =>
              (.internalError,
               { st1 with image_cache := setMap st1.image_cache cache_key (some imgs2) })
            | some idx =>
              let st2 : CacheState :=
                { st1 with
                  image_cache := setMap st1.image_cache cache_key (some imgs2),
                  image_index := setMap st1.image_index cache_key (some (idx % imgs2.length)) }
              (.success img_url ((st2.image_cache cache_key).getD []).length, st2)

/-- State after `n` successive `handle_artistart` requests with the same
arguments and environment. -/
def artCalls (env : ProviderEnv) (net : String → Option (List Nat × String))
    (args : List String) : Nat → CacheState → CacheState
  | 0, st => st
  | n + 1, st => artCalls env net args n (handle_artistart env net args st).2

/-- The `position/total` pair of a served response, when one was served. -/
def servedPos : ArtResponse → Option (Nat × Nat)
  | .served _ _ p t _ => some (p, t)
  | _ => none

/-- A concrete cached image used in the concrete instantiations below. -/
def recA : ImageRecord := ⟨[1, 2, 3], "image/jpeg", "http://img/a"⟩

/-- A second concrete cached image. -/
def recB : ImageRecord := ⟨[4, 5, 6], "image/png", "http://img/b"⟩

/-- The empty process state: nothing cached, nothing served, empty blacklist. -/
def stEmpty : CacheState :=
  { image_cache := fun _ => none
    image_index := fun _ => none
    current_image_url := fun _ => none
    blacklist := [] }

/-- A state whose key `"x|"` holds a two-image set with cursor 0. -/
def stTwo : CacheState :=
  { image_cache := setMap (fun _ => none) "x|" (some [recA, recB])
    image_index := setMap (fun _ => none) "x|" (some 0)
    current_image_url := fun _ => none
    blacklist := [] }

/-- A provider environment in which every provider fails or answers nothing. -/
def envNone : ProviderEnv := ⟨none, [], fun _ => [], [], []⟩

/-- A network on which every download fails. -/
def netNone : String → Option (List Nat × String) := fun _ => none

/-- A state whose key `"x|"` holds a two-image set, cursor 1, with `recA`
as the last served URL. -/
def stBL : CacheState :=
  { image_cache := setMap (fun _ => none) "x|" (some [recA, recB])
    image_index := setMap (fun _ => none) "x|" (some 1)
    current_image_url := setMap (fun _ => none) "x|" (some "http://img/a")
    blacklist := [] }

/-- A state whose key `"x|"` last served a protected placeholder URL. -/
def stPH : CacheState :=
  { image_cache := setMap (fun _ => none) "x|" (some [recA])
    image_index := setMap (fun _ => none) "x|" (some 0)
    current_image_url := setMap (fun _ => none) "x|"
      (some "https://ui-avatars.com/api/?name=X")
    blacklist := [] }

/-- A state whose key `"x|"` holds the single image `recA`, already served. -/
def stOne : CacheState :=
  { image_cache := setMap (fun _ => none) "x|" (some [recA])
    image_index := setMap (fun _ => none) "x|" (some 0)
    current_image_url := setMap (fun _ => none) "x|" (some "http://img/a")
    blacklist := [] }

/-- Invariant of C7: every existing image set is non-empty. -/
def NonemptySets (st : CacheState) : Prop :=
  ∀ k s, st.image_cache k = some s → s ≠ []

/-- An environment whose TheAudioDB album provider reports the same URL in
two of its image fields (for example `strAlbumThumb` and
`strAlbumThumbHQ` carrying one address). -/
def cEnvDup : ProviderEnv := ⟨none, ["http://dup/u", "http://dup/u"], fun _ => [], [], []⟩

/-- An environment with one Deezer artist picture and one distinct
TheAudioDB artist picture. -/
def cEnvOne : ProviderEnv :=
  ⟨none, [], fun _ => ["http://a/1"], [], ["http://a/2"]⟩

/-- A 500-byte payload. -/
def cData500 : List Nat := List.replicate 500 7

/-- A network able to serve exactly one URL, with a 500-byte payload. -/
def cNet500 : String → Option (List Nat × String) :=
  fun u => if u = "http://img/500" then some (cData500, "image/png") else none

/-- A 501-byte payload. -/
def cData501 : List Nat := List.replicate 501 7

/-- An environment whose Deezer artist provider answers a fetchable URL and
whose TheAudioDB artist provider answers a blacklisted one. -/
def cEnvSix : ProviderEnv :=
  ⟨none, [], fun _ => ["http://img/501"], [], ["http://bad"]⟩

/-- A state with an empty cache whose blacklist already holds one URL. -/
def stSix : CacheState :=
  { image_cache := fun _ => none
    image_index := fun _ => none
    current_image_url := fun _ => none
    blacklist := ["http://bad"] }

/-- A network able to serve exactly one URL, with a 501-byte payload. -/
def cNet501 : String → Option (List Nat × String) :=
  fun u => if u = "http://img/501" then some (cData501, "image/png") else none

theorem serve_hit (st : CacheState) (k : String) (imgs : List ImageRecord) (idx : Nat)
    (hc : st.image_cache k = some imgs) (hi : st.image_index k = some idx)
    (hlt : idx < imgs.length) :
    serveFromCache st k =
      (.served imgs[idx].data imgs[idx].contentType (idx + 1) imgs.length k,
       { st with
         current_image_url := setMap st.current_image_url k (some imgs[idx].sourceURL),
         image_index := setMap st.image_index k (some ((idx + 1) % imgs.length)) }) := by
  simp only [serveFromCache, hc, hi, List.getElem?_eq_getElem hlt]

theorem artistart_hit (env : ProviderEnv) (net : String → Option (List Nat × String))
    (a0 : String) (rest : List String) (st : CacheState) (imgs : List ImageRecord)
    (hc : st.image_cache (artKey (a0 :: rest)) = some imgs) :
    handle_artistart env net (a0 :: rest) st = serveFromCache st (artKey (a0 :: rest)) := by
  simp only [handle_artistart, hc]

theorem artistart_hit_result (env : ProviderEnv) (net : String → Option (List Nat × String))
    (a0 : String) (rest : List String) (st : CacheState) (imgs : List ImageRecord) (idx : Nat)
    (hc : st.image_cache (artKey (a0 :: rest)) = some imgs)
    (hi : st.image_index (artKey (a0 :: rest)) = some idx)
    (hlt : idx < imgs.length) :
    handle_artistart env net (a0 :: rest) st =
      (.served imgs[idx].data imgs[idx].contentType (idx + 1) imgs.length (artKey (a0 :: rest)),
       { st with
         current_image_url :=
           setMap st.current_image_url (artKey (a0 :: rest)) (some imgs[idx].sourceURL),
         image_index :=
           setMap st.image_index (artKey (a0 :: rest)) (some ((idx + 1) % imgs.length)) }) := by
  rw [artistart_hit env net a0 rest st imgs hc, serve_hit st _ imgs idx hc hi hlt]

theorem artCalls_state (env : ProviderEnv) (net : String → Option (List Nat × String))
    (a0 : String) (rest : List String) :
    ∀ (n : Nat) (st : CacheState) (imgs : List ImageRecord) (idx : Nat),
      st.image_cache (artKey (a0 :: rest)) = some imgs →
      st.image_index (artKey (a0 :: rest)) = some idx →
      idx < imgs.length →
      (artCalls env net (a0 :: rest) n st).image_cache (artKey (a0 :: rest)) = some imgs ∧
      (artCalls env net (a0 :: rest) n st).image_index (artKey (a0 :: rest)) =
        some ((idx + n) % imgs.length) := by
  intro n
  induction n with
  | zero =>
    intro st imgs idx hc hi hlt
    refine ⟨hc, ?_⟩
    show st.image_index (artKey (a0 :: rest)) = some ((idx + 0) % imgs.length)
    rw [hi, Nat.add_zero, Nat.mod_eq_of_lt hlt]
  | succ n ih =>
    intro st imgs idx hc hi hlt
    have hstep := artistart_hit_result env net a0 rest st imgs idx hc hi hlt
    have hc2 : (handle_artistart env net (a0 :: rest) st).2.image_cache (artKey (a0 :: rest)) =
        some imgs := by
      rw [hstep]; exact hc
    have hi2 : (handle_artistart env net (a0 :: rest) st).2.image_index (artKey (a0 :: rest)) =
        some ((idx + 1) % imgs.length) := by
      rw [hstep]; simp [setMap]
    have hlt2 : (idx + 1) % imgs.length < imgs.length := Nat.mod_lt _ (by omega)
    have hrec := ih (handle_artistart env net (a0 :: rest) st).2 imgs
      ((idx + 1) % imgs.length) hc2 hi2 hlt2
    refine ⟨hrec.1, ?_⟩
    show (artCalls env net (a0 :: rest) n (handle_artistart env net (a0 :: rest) st).2).image_index
        (artKey (a0 :: rest)) = some ((idx + (n + 1)) % imgs.length)
    rw [hrec.2, Nat.mod_add_mod]
    have harg : idx + 1 + n = idx + (n + 1) := by omega
    rw [harg]

/-- C1: on a cache hit the handler serves the record at the current rotation
cursor, reports `position = cursor + 1` and `total = |set|`, records the
served URL, and advances the cursor to `(cursor + 1) mod total`; across
repeated calls with an unchanged set the position of the call made after
`n` previous calls is `(cursor₀ + n) mod total + 1`, so consecutive calls
advance the position by exactly one modulo `total`, a cursor that starts
at 0 is back at position 1 after `total` calls, and a single-record set
answers `position = 1 / total = 1` on every call. -/
theorem c1_rotation (env : ProviderEnv) (net : String → Option (List Nat × String))
    (a0 : String) (rest : List String) (st : CacheState)
    (imgs : List ImageRecord) (idx : Nat)
    (hc : st.image_cache (artKey (a0 :: rest)) = some imgs)
    (hi : st.image_index (artKey (a0 :: rest)) = some idx)
    (hlt : idx < imgs.length) :
    (∀ n : Nat,
      servedPos (handle_artistart env net (a0 :: rest) (artCalls env net (a0 :: rest) n st)).1 =
        some ((idx + n) % imgs.length + 1, imgs.length)) ∧
    (idx = 0 →
      servedPos (handle_artistart env net (a0 :: rest)
          (artCalls env net (a0 :: rest) imgs.length st)).1 = some (1, imgs.length)) ∧
    (imgs.length = 1 → ∀ n : Nat,
      servedPos (handle_artistart env net (a0 :: rest) (artCalls env net (a0 :: rest) n st)).1 =
        some (1, 1)) ∧
    (handle_artistart env net (a0 :: rest) st).2.image_index (artKey (a0 :: rest)) =
      some ((idx + 1) % imgs.length) ∧
    (handle_artistart env net (a0 :: rest) st).2.current_image_url (artKey (a0 :: rest)) =
      some imgs[idx].sourceURL ∧
    (handle_artistart env net (a0 :: rest) st).2.image_cache (artKey (a0 :: rest)) =
      some imgs := by
  have hmain : ∀ n : Nat,
      servedPos (handle_artistart env net (a0 :: rest) (artCalls env net (a0 :: rest) n st)).1 =
        some ((idx + n) % imgs.length + 1, imgs.length) := by
    intro n
    have hstate := artCalls_state env net a0 rest n st imgs idx hc hi hlt
    have hlt2 : (idx + n) % imgs.length < imgs.length := Nat.mod_lt _ (by omega)
    have := artistart_hit_result env net a0 rest (artCalls env net (a0 :: rest) n st) imgs
      ((idx + n) % imgs.length) hstate.1 hstate.2 hlt2
    rw [this]
    rfl
  have hone := artistart_hit_result env net a0 rest st imgs idx hc hi hlt
  refine ⟨hmain, ?_, ?_, ?_, ?_, ?_⟩
  · intro h0
    have := hmain imgs.length
    rw [h0] at this
    rw [this, Nat.zero_add, Nat.mod_self]
  · intro h1 n
    have := hmain n
    rw [h1] at this
    rw [this, Nat.mod_one]
  · rw [hone]; simp [setMap]
  · rw [hone]; simp [setMap]
  · rw [hone]; exact hc

/-- witness for C1: a concrete two-image cache under key "x|", checked after
three calls (cursor 0 has moved to position (0+3) mod 2 + 1 = 2 of 2). -/
theorem c1_rotation_witness :
    servedPos (handle_artistart envNone netNone ["X"]
        (artCalls envNone netNone ["X"] 3 stTwo)).1 = some (2, 2) :=
  (c1_rotation envNone netNone "X" [] stTwo [recA, recB] 0
    (by decide) (by decide) (by decide)).1 3

theorem artistart_miss_empty (env : ProviderEnv) (net : String → Option (List Nat × String))
    (a0 : String) (rest : List String) (st : CacheState)
    (hmiss : st.image_cache (artKey (a0 :: rest)) = none)
    (hemp : filteredCandidates env st.blacklist (a0 :: rest) = []) :
    handle_artistart env net (a0 :: rest) st = (.noContent, st) := by
  simp only [handle_artistart, hmiss, hemp, if_pos]

theorem artistart_miss_nofetch (env : ProviderEnv) (net : String → Option (List Nat × String))
    (a0 : String) (rest : List String) (st : CacheState)
    (hmiss : st.image_cache (artKey (a0 :: rest)) = none)
    (hne : filteredCandidates env st.blacklist (a0 :: rest) ≠ [])
    (hfe : (filteredCandidates env st.blacklist (a0 :: rest)).filterMap (fetchOne net) = []) :
    handle_artistart env net (a0 :: rest) st = (.notFound, st) := by
  simp only [handle_artistart, hmiss]
  rw [if_neg hne, hfe, if_pos rfl]

theorem artistart_miss_store (env : ProviderEnv) (net : String → Option (List Nat × String))
    (a0 : String) (rest : List String) (st : CacheState)
    (hmiss : st.image_cache (artKey (a0 :: rest)) = none)
    (hne : filteredCandidates env st.blacklist (a0 :: rest) ≠ [])
    (hfne : (filteredCandidates env st.blacklist (a0 :: rest)).filterMap (fetchOne net) ≠ []) :
    handle_artistart env net (a0 :: rest) st =
      serveFromCache
        { st with
          image_cache := setMap st.image_cache (artKey (a0 :: rest))
            (some ((filteredCandidates env st.blacklist (a0 :: rest)).filterMap (fetchOne net))),
          image_index := setMap st.image_index (artKey (a0 :: rest)) (some 0) }
        (artKey (a0 :: rest)) := by
  simp only [handle_artistart, hmiss]
  rw [if_neg hne, if_neg hfne]

theorem serveFromCache_cache (st : CacheState) (k : String) :
    (serveFromCache st k).2.image_cache = st.image_cache := by
  unfold serveFromCache
  split
  · rfl
  · split
    · rfl
    · split
      · rfl
      · rfl

theorem serveFromCache_fst (st : CacheState) (k : String) :
    (serveFromCache st k).1 = .internalError ∨
    ∃ d c p t, (serveFromCache st k).1 = .served d c p t k := by
  unfold serveFromCache
  split
  · exact Or.inl rfl
  · split
    · exact Or.inl rfl
    · split
      · exact Or.inl rfl
      · exact Or.inr ⟨_, _, _, _, rfl⟩

/-- C3: on a cache miss, an empty blacklist-filtered candidate list gives the
`noContent` (HTTP 204) outcome with the state unchanged (no set created);
a non-empty candidate list with no successful fetch gives the distinct
`notFound` (HTTP 404) outcome, also with the state unchanged; and the
`noContent` outcome occurs only when the filtered candidate list was
empty. -/
theorem c3_miss_outcomes (env : ProviderEnv) (net : String → Option (List Nat × String))
    (a0 : String) (rest : List String) (st : CacheState)
    (hmiss : st.image_cache (artKey (a0 :: rest)) = none) :
    (filteredCandidates env st.blacklist (a0 :: rest) = [] →
      handle_artistart env net (a0 :: rest) st = (.noContent, st)) ∧
    (filteredCandidates env st.blacklist (a0 :: rest) ≠ [] →
      (filteredCandidates env st.blacklist (a0 :: rest)).filterMap (fetchOne net) = [] →
      handle_artistart env net (a0 :: rest) st = (.notFound, st)) ∧
    ((handle_artistart env net (a0 :: rest) st).1 = .noContent →
      filteredCandidates env st.blacklist (a0 :: rest) = []) := by
  refine ⟨fun hemp => artistart_miss_empty env net a0 rest st hmiss hemp,
    fun hne hfe => artistart_miss_nofetch env net a0 rest st hmiss hne hfe, ?_⟩
  intro hres
  by_contra hne
  by_cases hfe : (filteredCandidates env st.blacklist (a0 :: rest)).filterMap (fetchOne net) = []
  · rw [artistart_miss_nofetch env net a0 rest st hmiss hne hfe] at hres
    exact ArtResponse.noConfusion hres
  · rw [artistart_miss_store env net a0 rest st hmiss hne hfe] at hres
    rcases serveFromCache_fst
        { st with
          image_cache := setMap st.image_cache (artKey (a0 :: rest))
            (some ((filteredCandidates env st.blacklist (a0 :: rest)).filterMap (fetchOne net))),
          image_index := setMap st.image_index (artKey (a0 :: rest)) (some 0) }
        (artKey (a0 :: rest)) with h | ⟨d, c, p, t, h⟩
    · rw [h] at hres; exact ArtResponse.noConfusion hres
    · rw [h] at hres; exact ArtResponse.noConfusion hres

/-- witness for C3: with every provider failing, the first request for a new
key answers HTTP 204 and leaves the state untouched. -/
theorem c3_miss_outcomes_witness :
    handle_artistart envNone netNone ["X"] stEmpty = (.noContent, stEmpty) :=
  (c3_miss_outcomes envNone netNone "X" [] stEmpty rfl).1 (by decide)

theorem mem_filterMap_fetchOne (net : String → Option (List Nat × String))
    (urls : List String) (r : ImageRecord)
    (h : r ∈ urls.filterMap (fetchOne net)) : r.sourceURL ∈ urls := by
  rcases List.mem_filterMap.mp h with ⟨u, hu, hr⟩
  unfold fetchOne at hr
  split at hr
  · exact absurd hr (by simp)
  · split at hr
    · cases hr
      exact hu
    · exact absurd hr (by simp)

theorem filteredCandidates_not_blacklisted (env : ProviderEnv) (bl : List String)
    (args : List String) (u : String)
    (h : u ∈ filteredCandidates env bl args) : u ∉ bl := by
  unfold filteredCandidates at h
  have hm := List.mem_filter.mp h
  simpa using hm.2

/-- C6: if a cache-miss run of the handler creates an image set for the key,
every record of that set has a source URL that was not in the blacklist
at collection time; in particular this holds when the blacklist is the
set loaded from the persisted file at process start. -/
theorem c6_new_set_blacklist_free (env : ProviderEnv)
    (net : String → Option (List Nat × String))
    (a0 : String) (rest : List String) (st : CacheState) (s : List ImageRecord)
    (hmiss : st.image_cache (artKey (a0 :: rest)) = none)
    (hset : (handle_artistart env net (a0 :: rest) st).2.image_cache (artKey (a0 :: rest)) =
      some s) :
    (∀ r ∈ s, r.sourceURL ∉ st.blacklist) ∧
    (∀ fileContents, st.blacklist = load_blacklist fileContents →
      ∀ r ∈ s, r.sourceURL ∉ load_blacklist fileContents) := by
  have hmain : ∀ r ∈ s, r.sourceURL ∉ st.blacklist := by
    by_cases hemp : filteredCandidates env st.blacklist (a0 :: rest) = []
    · rw [artistart_miss_empty env net a0 rest st hmiss hemp] at hset
      rw [show ((ArtResponse.noContent, st) : ArtResponse × CacheState).2 = st from rfl] at hset
      rw [hmiss] at hset
      exact absurd hset (by simp)
    · by_cases hfe : (filteredCandidates env st.blacklist (a0 :: rest)).filterMap
          (fetchOne net) = []
      · rw [artistart_miss_nofetch env net a0 rest st hmiss hemp hfe] at hset
        rw [show ((ArtResponse.notFound, st) : ArtResponse × CacheState).2 = st from rfl] at hset
        rw [hmiss] at hset
        exact absurd hset (by simp)
      · rw [artistart_miss_store env net a0 rest st hmiss hemp hfe] at hset
        rw [serveFromCache_cache] at hset
        simp only [setMap, if_pos] at hset
        intro r hr
        injection hset with hset2
        rw [← hset2] at hr
        have := mem_filterMap_fetchOne net _ r hr
        exact filteredCandidates_not_blacklisted env st.blacklist (a0 :: rest) r.sourceURL this
  exact ⟨hmain, fun fc hfc r hr => by rw [← hfc]; exact hmain r hr⟩

set_option maxRecDepth 8000 in
/-- witness for C6: the set created for key "x|" under a blacklist holding
`http://bad` contains only the non-blacklisted download. -/
theorem c6_new_set_blacklist_free_witness :
    (⟨cData501, "image/png", "http://img/501"⟩ : ImageRecord).sourceURL ∉ stSix.blacklist :=
  (c6_new_set_blacklist_free cEnvSix cNet501 "X" [] stSix
      [⟨cData501, "image/png", "http://img/501"⟩] rfl (by decide)).1
    ⟨cData501, "image/png", "http://img/501"⟩ (List.mem_singleton.mpr rfl)

theorem artistart_preserves_nonempty (env : ProviderEnv)
    (net : String → Option (List Nat × String)) (args : List String) (st : CacheState)
    (h : NonemptySets st) : NonemptySets (handle_artistart env net args st).2 := by
  match args with
  | [] => exact h
  | a0 :: rest =>
    cases hkey : st.image_cache (artKey (a0 :: rest)) with
    | some imgs =>
      rw [artistart_hit env net a0 rest st imgs hkey]
      intro k s hs
      rw [serveFromCache_cache] at hs
      exact h k s hs
    | none =>
      by_cases hemp : filteredCandidates env st.blacklist (a0 :: rest) = []
      · rw [artistart_miss_empty env net a0 rest st hkey hemp]
        exact h
      · by_cases hfe : (filteredCandidates env st.blacklist (a0 :: rest)).filterMap
            (fetchOne net) = []
        · rw [artistart_miss_nofetch env net a0 rest st hkey hemp hfe]
          exact h
        · rw [artistart_miss_store env net a0 rest st hkey hemp hfe]
          intro k s hs
          rw [serveFromCache_cache] at hs
          simp only [setMap] at hs
          by_cases hk : k = artKey (a0 :: rest)
          · rw [if_pos hk] at hs
            cases hs
            exact hfe
          · rw [if_neg hk] at hs
            exact h k s hs

theorem blacklist_preserves_nonempty (args : List String) (st : CacheState)
    (h : NonemptySets st) : NonemptySets (handle_blacklist args st).2 := by
  match args with
  | [] => exact h
  | k0 :: rest =>
    simp only [handle_blacklist]
    split
    · exact h
    · split
      · exact h
      · split
        · exact h
        · split
          · intro k s hs
            simp only [setMap] at hs
            by_cases hk : k = lowerStr k0
            · rw [if_pos hk] at hs
              exact absurd hs (by simp)
            · rw [if_neg hk] at hs
              exact h k s hs
          · rename_i hne
            split
            · intro k s hs
              simp only [setMap] at hs
              by_cases hk : k = lowerStr k0
              · rw [if_pos hk] at hs
                cases hs
                exact hne
              · rw [if_neg hk] at hs
                exact h k s hs
            · intro k s hs
              simp only [setMap] at hs
              by_cases hk : k = lowerStr k0
              · rw [if_pos hk] at hs
                cases hs
                exact hne
              · rw [if_neg hk] at hs
                exact h k s hs

/-- C7: the non-emptiness invariant of cached image sets is preserved by both
public operations: the art handler never stores an empty set (it answers
204 or 404 instead), and the blacklist handler deletes a key rather than
keep an emptied set. -/
theorem c7_nonempty_invariant (env : ProviderEnv)
    (net : String → Option (List Nat × String)) (argsA argsB : List String)
    (st : CacheState) (h : NonemptySets st) :
    NonemptySets (handle_artistart env net argsA st).2 ∧
    NonemptySets (handle_blacklist argsB st).2 :=
  ⟨artistart_preserves_nonempty env net argsA st h,
   blacklist_preserves_nonempty argsB st h⟩

/-- witness for C7 at the empty state. -/
theorem c7_nonempty_invariant_witness :
    NonemptySets (handle_artistart envNone netNone ["X"] stEmpty).2 ∧
    NonemptySets (handle_blacklist ["x|"] stEmpty).2 :=
  c7_nonempty_invariant envNone netNone ["X"] ["x|"] stEmpty
    (fun _ _ hs => Option.noConfusion hs)

theorem hb_nocur (k0 : String) (rest : List String) (st : CacheState)
    (hcur : st.current_image_url (lowerStr k0) = none) :
    handle_blacklist (k0 :: rest) st = (.noCurrentImage, st) := by
  simp only [handle_blacklist, hcur]

theorem hb_placeholder (k0 : String) (rest : List String) (st : CacheState) (img_url : String)
    (hcur : st.current_image_url (lowerStr k0) = some img_url)
    (hph : containsSub "ui-avatars.com" img_url = true) :
    handle_blacklist (k0 :: rest) st =
      (.protectedPlaceholder ((st.image_cache (lowerStr k0)).getD []).length, st) := by
  simp only [handle_blacklist, hcur, hph, if_pos]

theorem hb_nocache (k0 : String) (rest : List String) (st : CacheState) (img_url : String)
    (hcur : st.current_image_url (lowerStr k0) = some img_url)
    (hph : containsSub "ui-avatars.com" img_url = false)
    (hc : st.image_cache (lowerStr k0) = none) :
    handle_blacklist (k0 :: rest) st =
      (.success img_url 0, { st with blacklist := st.blacklist.insert img_url }) := by
  simp only [handle_blacklist, hcur, hph, hc, Bool.false_eq_true, if_false]
  rfl

theorem hb_delete (k0 : String) (rest : List String) (st : CacheState) (img_url : String)
    (imgs : List ImageRecord)
    (hcur : st.current_image_url (lowerStr k0) = some img_url)
    (hph : containsSub "ui-avatars.com" img_url = false)
    (hc : st.image_cache (lowerStr k0) = some imgs)
    (hemp : imgs.filter (fun r => decide (r.sourceURL ≠ img_url)) = []) :
    handle_blacklist (k0 :: rest) st =
      (.success img_url 0,
       { st with
         blacklist := st.blacklist.insert img_url,
         image_cache := setMap st.image_cache (lowerStr k0) none,
         image_index := setMap st.image_index (lowerStr k0) none }) := by
  simp only [handle_blacklist, hcur, hph, Bool.false_eq_true, if_false]
  rw [show ({ st with blacklist := st.blacklist.insert img_url } : CacheState).image_cache =
    st.image_cache from rfl, hc]
  simp only [hemp, if_pos, setMap]
  simp

theorem hb_clamp (k0 : String) (rest : List String) (st : CacheState) (img_url : String)
    (imgs : List ImageRecord) (idx : Nat)
    (hcur : st.current_image_url (lowerStr k0) = some img_url)
    (hph : containsSub "ui-avatars.com" img_url = false)
    (hc : st.image_cache (lowerStr k0) = some imgs)
    (hi : st.image_index (lowerStr k0) = some idx)
    (hne : imgs.filter (fun r => decide (r.sourceURL ≠ img_url)) ≠ []) :
    handle_blacklist (k0 :: rest) st =
      (.success img_url (imgs.filter (fun r => decide (r.sourceURL ≠ img_url))).length,
       { st with
         blacklist := st.blacklist.insert img_url,
         image_cache := setMap st.image_cache (lowerStr k0)
           (some (imgs.filter (fun r => decide (r.sourceURL ≠ img_url)))),
         image_index := setMap st.image_index (lowerStr k0)
           (some (idx % (imgs.filter (fun r => decide (r.sourceURL ≠ img_url))).length)) }) := by
  simp only [handle_blacklist, hcur, hph, Bool.false_eq_true, if_false]
  rw [show ({ st with blacklist := st.blacklist.insert img_url } : CacheState).image_cache =
    st.image_cache from rfl, hc]
  simp only [hne, if_neg, if_false]
  rw [show ({ st with blacklist := st.blacklist.insert img_url } : CacheState).image_index =
    st.image_index from rfl, hi]
  simp only [setMap]
  simp

theorem hb_crash (k0 : String) (rest : List String) (st : CacheState) (img_url : String)
    (imgs : List ImageRecord)
    (hcur : st.current_image_url (lowerStr k0) = some img_url)
    (hph : containsSub "ui-avatars.com" img_url = false)
    (hc : st.image_cache (lowerStr k0) = some imgs)
    (hi : st.image_index (lowerStr k0) = none)
    (hne : imgs.filter (fun r => decide (r.sourceURL ≠ img_url)) ≠ []) :
    handle_blacklist (k0 :: rest) st =
      (.internalError,
       { st with
         blacklist := st.blacklist.insert img_url,
         image_cache := setMap st.image_cache (lowerStr k0)
           (some (imgs.filter (fun r => decide (r.sourceURL ≠ img_url)))) }) := by
  simp only [handle_blacklist, hcur, hph, Bool.false_eq_true, if_false]
  rw [show ({ st with blacklist := st.blacklist.insert img_url } : CacheState).image_cache =
    st.image_cache from rfl, hc]
  simp only [hne, if_neg, if_false]
  rw [show ({ st with blacklist := st.blacklist.insert img_url } : CacheState).image_index =
    st.image_index from rfl, hi]

/-- C4: blacklisting the current, non-placeholder URL of a key answers
`success` with that URL and the remaining record count, adds the URL to
the blacklist store, removes from the key's image set exactly the records
whose source URL equals it, deletes the image set and rotation index
entirely when the set becomes empty, and otherwise stores the shrunk set
with the index re-clamped modulo its new size. -/
theorem c4_blacklist_success (k0 : String) (rest : List String) (st : CacheState)
    (img_url : String) (imgs : List ImageRecord) (idx : Nat)
    (hcur : st.current_image_url (lowerStr k0) = some img_url)
    (hph : containsSub "ui-avatars.com" img_url = false)
    (hc : st.image_cache (lowerStr k0) = some imgs)
    (hi : st.image_index (lowerStr k0) = some idx) :
    (handle_blacklist (k0 :: rest) st).1 =
      .success img_url (imgs.filter (fun r => decide (r.sourceURL ≠ img_url))).length ∧
    (handle_blacklist (k0 :: rest) st).2.blacklist = st.blacklist.insert img_url ∧
    img_url ∈ (handle_blacklist (k0 :: rest) st).2.blacklist ∧
    (∀ r ∈ imgs, r.sourceURL = img_url →
      ∀ s, (handle_blacklist (k0 :: rest) st).2.image_cache (lowerStr k0) = some s →
        r ∉ s) ∧
    (∀ r ∈ imgs, r.sourceURL ≠ img_url →
      ∀ s, (handle_blacklist (k0 :: rest) st).2.image_cache (lowerStr k0) = some s →
        r ∈ s) ∧
    (imgs.filter (fun r => decide (r.sourceURL ≠ img_url)) = [] →
      (handle_blacklist (k0 :: rest) st).2.image_cache (lowerStr k0) = none ∧
      (handle_blacklist (k0 :: rest) st).2.image_index (lowerStr k0) = none) ∧
    (imgs.filter (fun r => decide (r.sourceURL ≠ img_url)) ≠ [] →
      (handle_blacklist (k0 :: rest) st).2.image_cache (lowerStr k0) =
        some (imgs.filter (fun r => decide (r.sourceURL ≠ img_url))) ∧
      (handle_blacklist (k0 :: rest) st).2.image_index (lowerStr k0) =
        some (idx % (imgs.filter (fun r => decide (r.sourceURL ≠ img_url))).length)) := by
  by_cases hemp : imgs.filter (fun r => decide (r.sourceURL ≠ img_url)) = []
  · rw [hb_delete k0 rest st img_url imgs hcur hph hc hemp]
    refine ⟨by rw [hemp]; rfl, rfl, List.mem_insert_self img_url st.blacklist, ?_, ?_, ?_, ?_⟩
    · intro r _ _ s hs
      simp [setMap] at hs
    · intro r hr hrne s hs
      simp [setMap] at hs
    · intro _
      exact ⟨by simp [setMap], by simp [setMap]⟩
    · intro hne
      exact absurd hemp hne
  · rw [hb_clamp k0 rest st img_url imgs idx hcur hph hc hi hemp]
    refine ⟨rfl, rfl, List.mem_insert_self img_url st.blacklist, ?_, ?_, ?_, ?_⟩
    · intro r _ hre s hs
      simp only [setMap, if_pos] at hs
      injection hs with hs2
      rw [← hs2]
      intro hmem
      have := List.mem_filter.mp hmem
      simp [hre] at this
    · intro r hr hrne s hs
      simp only [setMap, if_pos] at hs
      injection hs with hs2
      rw [← hs2]
      exact List.mem_filter.mpr ⟨hr, by simpa using hrne⟩
    · intro he
      exact absurd he hemp
    · intro _
      exact ⟨by simp [setMap], by simp [setMap]⟩

/-- witness for C4: blacklisting `recA` out of the two-image set leaves one
record. -/
theorem c4_blacklist_success_witness :
    (handle_blacklist ["x|"] stBL).1 = .success "http://img/a" 1 :=
  (c4_blacklist_success "x|" [] stBL "http://img/a" [recA, recB] 1
    (by decide) (by decide) (by decide) (by decide)).1

theorem hb_no_placeholder_insert (args : List String) (st : CacheState) (u : String)
    (hu : containsSub "ui-avatars.com" u = true) (hmem : u ∉ st.blacklist) :
    u ∉ (handle_blacklist args st).2.blacklist := by
  match args with
  | [] => exact hmem
  | k0 :: rest =>
    simp only [handle_blacklist]
    split
    · exact hmem
    · rename_i img_url hcur
      split
      · exact hmem
      · rename_i hph
        have hne : u ≠ img_url := by
          intro he
          rw [← he] at hph
          exact hph hu
        have hgoal : u ∉ st.blacklist.insert img_url := by
          intro hin
          rcases List.mem_insert_iff.mp hin with he | hm
          · exact hne he
          · exact hmem hm
        split
        · exact hgoal
        · split
          · exact hgoal
          · split
            · exact hgoal
            · exact hgoal

/-- C5: a request to blacklist a protected placeholder URL (one containing
`ui-avatars.com`) is a pure no-op answered with the unchanged remaining
count and a "not blacklistable" payload, and across any sequence of
blacklist requests a URL matching the protected pattern that is not in
the blacklist store never enters it. -/
theorem c5_placeholder_protected (k0 : String) (rest : List String) (st : CacheState)
    (img_url : String)
    (hcur : st.current_image_url (lowerStr k0) = some img_url)
    (hph : containsSub "ui-avatars.com" img_url = true) :
    handle_blacklist (k0 :: rest) st =
      (.protectedPlaceholder ((st.image_cache (lowerStr k0)).getD []).length, st) ∧
    (∀ args2 st2 u, containsSub "ui-avatars.com" u = true →
      u ∉ st2.blacklist → u ∉ (handle_blacklist args2 st2).2.blacklist) :=
  ⟨hb_placeholder k0 rest st img_url hcur hph,
   fun args2 st2 u hu hm => hb_no_placeholder_insert args2 st2 u hu hm⟩

/-- witness for C5: blacklisting the placeholder answers the error payload
with the cache untouched. -/
theorem c5_placeholder_protected_witness :
    handle_blacklist ["x|"] stPH = (.protectedPlaceholder 1, stPH) :=
  (c5_placeholder_protected "x|" [] stPH "https://ui-avatars.com/api/?name=X"
    (by decide) (by decide)).1

/-- C9: a blacklist request fails with `noCurrentImage` (HTTP 404) exactly
when no last-served URL is tracked for the lowercased key, and in that
case the whole cache state is unchanged. -/
theorem c9_nocurrent_iff (k0 : String) (rest : List String) (st : CacheState) :
    ((handle_blacklist (k0 :: rest) st).1 = .noCurrentImage ↔
      st.current_image_url (lowerStr k0) = none) ∧
    (st.current_image_url (lowerStr k0) = none →
      handle_blacklist (k0 :: rest) st = (.noCurrentImage, st)) := by
  cases hcur : st.current_image_url (lowerStr k0) with
  | none =>
    rw [hb_nocur k0 rest st hcur]
    exact ⟨⟨fun _ => rfl, fun _ => rfl⟩, fun _ => rfl⟩
  | some img_url =>
    have hne : (handle_blacklist (k0 :: rest) st).1 ≠ .noCurrentImage := by
      by_cases hph : containsSub "ui-avatars.com" img_url = true
      · rw [hb_placeholder k0 rest st img_url hcur hph]
        exact fun h => BlResponse.noConfusion h
      · have hph2 : containsSub "ui-avatars.com" img_url = false :=
          Bool.not_eq_true _ ▸ Bool.of_not_eq_true hph
        cases hc : st.image_cache (lowerStr k0) with
        | none =>
          rw [hb_nocache k0 rest st img_url hcur hph2 hc]
          exact fun h => BlResponse.noConfusion h
        | some imgs =>
          by_cases hemp : imgs.filter (fun r => decide (r.sourceURL ≠ img_url)) = []
          · rw [hb_delete k0 rest st img_url imgs hcur hph2 hc hemp]
            exact fun h => BlResponse.noConfusion h
          · cases hi : st.image_index (lowerStr k0) with
            | none =>
              rw [hb_crash k0 rest st img_url imgs hcur hph2 hc hi hemp]
              exact fun h => BlResponse.noConfusion h
            | some idx =>
              rw [hb_clamp k0 rest st img_url imgs idx hcur hph2 hc hi hemp]
              exact fun h => BlResponse.noConfusion h
    refine ⟨⟨fun h => absurd h hne, fun h => ?_⟩, fun h => ?_⟩
    · exact Option.noConfusion h
    · exact Option.noConfusion h

/-- witness for C9 at the empty state. -/
theorem c9_nocurrent_iff_witness :
    handle_blacklist ["x|"] stEmpty = (.noCurrentImage, stEmpty) :=
  (c9_nocurrent_iff "x|" [] stEmpty).2 rfl

/-- C10: after a blacklist request empties and deletes a key's image set,
the key's last-served URL entry survives and still holds the removed URL,
so an immediate second blacklist request for the same key succeeds again
(no `noCurrentImage`), answers the same URL with remaining count 0, and
the URL stays in the blacklist store. -/
theorem c10_reblacklist (k0 : String) (rest : List String) (st : CacheState)
    (img_url : String) (imgs : List ImageRecord)
    (hcur : st.current_image_url (lowerStr k0) = some img_url)
    (hph : containsSub "ui-avatars.com" img_url = false)
    (hc : st.image_cache (lowerStr k0) = some imgs)
    (hemp : imgs.filter (fun r => decide (r.sourceURL ≠ img_url)) = []) :
    (handle_blacklist (k0 :: rest) st).2.image_cache (lowerStr k0) = none ∧
    (handle_blacklist (k0 :: rest) st).2.current_image_url (lowerStr k0) = some img_url ∧
    handle_blacklist (k0 :: rest) ((handle_blacklist (k0 :: rest) st).2) =
      (.success img_url 0, (handle_blacklist (k0 :: rest) st).2) ∧
    img_url ∈ (handle_blacklist (k0 :: rest)
      ((handle_blacklist (k0 :: rest) st).2)).2.blacklist := by
  rw [hb_delete k0 rest st img_url imgs hcur hph hc hemp]
  have hcache1 : (setMap st.image_cache (lowerStr k0) none) (lowerStr k0) = none := by
    simp [setMap]
  have hsecond :
      handle_blacklist (k0 :: rest)
        ({ st with
           blacklist := st.blacklist.insert img_url,
           image_cache := setMap st.image_cache (lowerStr k0) none,
           image_index := setMap st.image_index (lowerStr k0) none } : CacheState) =
      (.success img_url 0,
       { st with
         blacklist := (st.blacklist.insert img_url).insert img_url,
         image_cache := setMap st.image_cache (lowerStr k0) none,
         image_index := setMap st.image_index (lowerStr k0) none }) :=
    hb_nocache k0 rest _ img_url hcur hph hcache1
  have hins : (st.blacklist.insert img_url).insert img_url = st.blacklist.insert img_url :=
    List.insert_of_mem (List.mem_insert_self img_url st.blacklist)
  rw [hins] at hsecond
  exact ⟨hcache1, hcur, hsecond,
    by rw [hsecond]; exact List.mem_insert_self img_url st.blacklist⟩

/-- witness for C10: a second blacklist request on the emptied key still
succeeds with remaining count 0. -/
theorem c10_reblacklist_witness :
    handle_blacklist ["x|"] ((handle_blacklist ["x|"] stOne).2) =
      (.success "http://img/a" 0, (handle_blacklist ["x|"] stOne).2) :=
  (c10_reblacklist "x|" [] stOne "http://img/a" [recA]
    (by decide) (by decide) (by decide) (by decide)).2.2.1

theorem dedupAppend_nodup (us : List String) (u : String) (h : us.Nodup) :
    (dedupAppend us u).Nodup := by
  unfold dedupAppend
  split
  · exact h
  · rename_i hmem
    rw [List.nodup_append]
    exact ⟨h, List.nodup_singleton u, by simpa using hmem⟩

theorem foldl_dedupAppend_nodup (l : List String) (us : List String) (h : us.Nodup) :
    (l.foldl dedupAppend us).Nodup := by
  induction l generalizing us with
  | nil => exact h
  | cons a l ih => exact ih _ (dedupAppend_nodup us a h)

theorem deezerArtistStep_nodup (env : ProviderEnv) (us : List String) (term : String)
    (h : us.Nodup) : (deezerArtistStep env us term).Nodup := by
  unfold deezerArtistStep
  split
  · rename_i u heq
    have hmem : u ∉ us := by
      have := List.find?_some heq
      simpa using this
    rw [List.nodup_append]
    exact ⟨h, List.nodup_singleton u, by simpa using hmem⟩
  · exact h

theorem foldl_deezerArtistStep_nodup (env : ProviderEnv) (terms : List String)
    (us : List String) (h : us.Nodup) :
    (terms.foldl (deezerArtistStep env) us).Nodup := by
  induction terms generalizing us with
  | nil => exact h
  | cons a l ih => exact ih _ (deezerArtistStep_nodup env us a h)

theorem collectUrls_nodup (env : ProviderEnv) (artist album : String)
    (h : (albumPhase env).Nodup) : (collectUrls env artist album).Nodup := by
  simp only [collectUrls]
  apply foldl_dedupAppend_nodup
  split
  · split
    · exact foldl_dedupAppend_nodup _ _ (foldl_deezerArtistStep_nodup env _ _ h)
    · exact foldl_deezerArtistStep_nodup env _ _ h
  · split
    · exact foldl_dedupAppend_nodup _ _ (foldl_deezerArtistStep_nodup env _ _ List.nodup_nil)
    · exact foldl_deezerArtistStep_nodup env _ _ List.nodup_nil

/-- counterexample to C2: for artist "a", album "b" and an empty blacklist,
the TheAudioDB album provider's fields are appended without any
de-duplication, so the final candidate list handed to the download loop
contains the same URL twice. -/
theorem c2_counterexample :
    ¬ (filteredCandidates cEnvDup [] ["a", "b"]).Nodup := by decide

/-- C2 amended: every provider after the album-art phase (the Deezer artist
search, the Deezer track fallback, and the TheAudioDB artist search)
checks membership before appending, so whenever the combined album-art
contribution is itself free of duplicates the final blacklist-filtered
candidate list contains no duplicate URL; the album-art phase itself
appends unchecked. -/
theorem c2_amended_dedup (env : ProviderEnv) (bl : List String) (args : List String)
    (h : (albumPhase env).Nodup) : (filteredCandidates env bl args).Nodup := by
  unfold filteredCandidates
  exact List.Nodup.filter _ (collectUrls_nodup env (artArtist args) (artAlbum args) h)

/-- witness for the amended C2 on a duplicate-free album phase. -/
theorem c2_amended_dedup_witness :
    (albumPhase cEnvOne).Nodup ∧ (filteredCandidates cEnvOne [] ["x"]).Nodup :=
  ⟨by decide, c2_amended_dedup cEnvOne [] ["x"] (by decide)⟩

theorem fetchOne_none (net : String → Option (List Nat × String)) (url : String)
    (h : net url = none) : fetchOne net url = none := by
  unfold fetchOne
  rw [h]

theorem fetchOne_small (net : String → Option (List Nat × String)) (url : String)
    (bytes : List Nat) (ct : String)
    (h : net url = some (bytes, ct)) (hle : bytes.length ≤ 500) :
    fetchOne net url = none := by
  unfold fetchOne
  rw [h]
  exact if_neg (by omega)

theorem fetchOne_keep (net : String → Option (List Nat × String)) (url : String)
    (bytes : List Nat) (ct : String)
    (h : net url = some (bytes, ct)) (hgt : 500 < bytes.length) :
    fetchOne net url = some ⟨bytes, ct, url⟩ := by
  unfold fetchOne
  rw [h]
  exact if_pos hgt

/-- counterexample to C8: a payload of exactly 500 bytes downloads
successfully and is not below the 500-byte threshold, yet the fetcher
rejects it, because the code keeps a payload only when it is strictly
larger than 500 bytes (`if len(img_data) > 500`). -/
theorem c8_counterexample :
    cNet500 "http://img/500" = some (cData500, "image/png") ∧
    ¬ cData500.length < 500 ∧
    fetchOne cNet500 "http://img/500" = none := by
  have h5 : cData500.length = 500 := by
    simp only [cData500, List.length_replicate]
  exact ⟨rfl, by omega, fetchOne_small cNet500 "http://img/500" cData500 "image/png" rfl
    (by omega)⟩

/-- C8 amended: the fetcher yields no record exactly when the download fails
or the payload is at most 500 bytes (strictly more than 500 bytes is
required, so a payload of exactly 500 bytes is also rejected); a
successful download strictly above 500 bytes is kept with its bytes,
content type and source URL; and one URL's failure never blocks another
URL's record in the same batch. -/
theorem c8_amended_threshold (net : String → Option (List Nat × String))
    (urls : List String) (url : String) (bytes : List Nat) (ct : String) :
    (net url = none → fetchOne net url = none) ∧
    (net url = some (bytes, ct) → bytes.length ≤ 500 → fetchOne net url = none) ∧
    (net url = some (bytes, ct) → 500 < bytes.length →
      fetchOne net url = some ⟨bytes, ct, url⟩) ∧
    (url ∈ urls → net url = some (bytes, ct) → 500 < bytes.length →
      (⟨bytes, ct, url⟩ : ImageRecord) ∈ urls.filterMap (fetchOne net)) ∧
    (∀ r ∈ urls.filterMap (fetchOne net),
      ∃ d c, net r.sourceURL = some (d, c) ∧ 500 < d.length ∧
        r = ⟨d, c, r.sourceURL⟩) := by
  refine ⟨fetchOne_none net url, fetchOne_small net url bytes ct,
    fetchOne_keep net url bytes ct, ?_, ?_⟩
  · intro hmem h hgt
    exact List.mem_filterMap.mpr ⟨url, hmem, fetchOne_keep net url bytes ct h hgt⟩
  · intro r hr
    rcases List.mem_filterMap.mp hr with ⟨u, _, hu⟩
    unfold fetchOne at hu
    split at hu
    · exact absurd hu (by simp)
    · rename_i d c hnu
      split at hu
      · rename_i hgt
        cases hu
        exact ⟨d, c, hnu, hgt, rfl⟩
      · exact absurd hu (by simp)

/-- witness for the amended C8: a 501-byte payload is kept. -/
theorem c8_amended_threshold_witness :
    fetchOne cNet501 "http://img/501" = some ⟨cData501, "image/png", "http://img/501"⟩ :=
  (c8_amended_threshold cNet501 [] "http://img/501" cData501 "image/png").2.2.1
    rfl (by simp only [cData501, List.length_replicate]; omega)

end MpdWeb
